/-
Verification of the BetMaster probabilistic prediction and staking engine.

The Lean definitions below are a shallow embedding of the Python sources:
  * `analyzer/poisson_model.py`   (PoissonModel)
  * `analyzer/stats_fetcher.py`   (StatsFetcher.get_team_rating / _similarity)
  * `predictor/confidence_engine.py` (ConfidenceEngine)
  * `config.py`                   (STAKE_CONFIG, KELLY_FRACTION, thresholds)

Python floats are modelled as exact real numbers (`ℝ`) where transcendental
functions (the Poisson pmf) are involved, and as exact rationals (`ℚ`) for
the purely rational arithmetic (expected goals, live adjustment, odds), so
that branch conditions evaluated on those values stay decidable.
Python's `round(x, n)` rounds half to even; `rndHalfEven` models that.
The malformed (dead) AI-adjustment block in `ConfidenceEngine.analyze_game`
and the presentation-only reason/warning strings are not modelled.
-/

import Mathlib

/-- Round a real to the nearest integer, ties to even: the semantics of
Python's `round` on the represented value. -/
noncomputable def rndHalfEven (x : ℝ) : ℤ :=
  if x - ⌊x⌋ < 1/2 then ⌊x⌋
  else if 1/2 < x - ⌊x⌋ then ⌊x⌋ + 1
  else if ⌊x⌋ % 2 = 0 then ⌊x⌋ else ⌊x⌋ + 1

/-- Rational version of `rndHalfEven` (computable). -/
def rndHalfEvenQ (x : ℚ) : ℤ :=
  if x - ⌊x⌋ < 1/2 then ⌊x⌋
  else if 1/2 < x - ⌊x⌋ then ⌊x⌋ + 1
  else if ⌊x⌋ % 2 = 0 then ⌊x⌋ else ⌊x⌋ + 1

/-- Python `round(x, 4)`. -/
noncomputable def round4 (x : ℝ) : ℝ := (rndHalfEven (x * 10000) : ℝ) / 10000

/-- Python `round(x, 1)`. -/
noncomputable def round1 (x : ℝ) : ℝ := (rndHalfEven (x * 10) : ℝ) / 10

/-- Python `round(x, -1)`: round to the nearest multiple of ten. -/
noncomputable def roundTens (x : ℝ) : ℝ := (rndHalfEven (x / 10) : ℝ) * 10

/-- Python `round(x, 2)` on a rational value. -/
def round2Q (x : ℚ) : ℚ := (rndHalfEvenQ (x * 100) : ℚ) / 100

theorem rndHalfEven_intCast (n : ℤ) : rndHalfEven (n : ℝ) = n := by
  unfold rndHalfEven
  rw [Int.floor_intCast]
  norm_num

theorem le_rndHalfEven {n : ℤ} {x : ℝ} (h : (n : ℝ) ≤ x) : n ≤ rndHalfEven x := by
  have hf : n ≤ ⌊x⌋ := Int.le_floor.mpr h
  unfold rndHalfEven
  split_ifs <;> omega

theorem rndHalfEven_le {n : ℤ} {x : ℝ} (h : x ≤ (n : ℝ)) : rndHalfEven x ≤ n := by
  have hfl : ⌊x⌋ ≤ n := by
    have h2 := Int.floor_le_floor h
    rwa [Int.floor_intCast] at h2
  unfold rndHalfEven
  split_ifs with h1 h2 h3
  · exact hfl
  all_goals {
    have hx : (⌊x⌋ : ℝ) + 1/2 ≤ x := by linarith
    have : (⌊x⌋ : ℝ) < n := by linarith
    have : ⌊x⌋ < n := by exact_mod_cast this
    omega }

/-- Key identity behind exact market complements: subtracting from an even
integer commutes with half-to-even rounding. -/
theorem rndHalfEven_even_sub {m : ℤ} (hm : m % 2 = 0) (y : ℝ) :
    rndHalfEven ((m : ℝ) - y) = m - rndHalfEven y := by
  rcases eq_or_lt_of_le (Int.floor_le y) with hy | hy
  · -- y is an integer
    have h1 : rndHalfEven y = ⌊y⌋ := by
      unfold rndHalfEven
      rw [if_pos (by linarith)]
    have h2 : ((m : ℝ) - y) = ((m - ⌊y⌋ : ℤ) : ℝ) := by push_cast; linarith
    rw [h1, h2, rndHalfEven_intCast]
  · -- y has a nonzero fractional part
    have hfu : y < (⌊y⌋ : ℝ) + 1 := Int.lt_floor_add_one y
    have hfloor : ⌊(m : ℝ) - y⌋ = m - ⌊y⌋ - 1 := by
      apply Int.floor_eq_iff.mpr
      constructor
      · push_cast; linarith
      · push_cast; linarith
    unfold rndHalfEven
    rw [hfloor]
    have e1 : (m : ℝ) - y - ((m - ⌊y⌋ - 1 : ℤ) : ℝ) = 1 - (y - ⌊y⌋) := by
      push_cast; ring
    rw [e1]
    split_ifs <;> first | omega | (exfalso; linarith)

theorem round4_complement (s : ℝ) : round4 (1 - s) = 1 - round4 s := by
  unfold round4
  have h1 : (1 - s) * 10000 = ((10000 : ℤ) : ℝ) - s * 10000 := by push_cast; ring
  rw [h1, rndHalfEven_even_sub (by norm_num)]
  push_cast
  ring

theorem round4_fix {x : ℝ} {n : ℤ} (h : x * 10000 = (n : ℝ)) : round4 x = x := by
  unfold round4
  rw [h, rndHalfEven_intCast]
  linarith

theorem round4_idem (x : ℝ) : round4 (round4 x) = round4 x := by
  apply round4_fix (n := rndHalfEven (x * 10000))
  unfold round4
  field_simp

theorem round4_ge {n : ℤ} {x : ℝ} (h : (n : ℝ) / 10000 ≤ x) :
    (n : ℝ) / 10000 ≤ round4 x := by
  unfold round4
  have h2 : (n : ℝ) ≤ x * 10000 := by linarith
  have h3 := le_rndHalfEven h2
  have h4 : (n : ℝ) ≤ (rndHalfEven (x * 10000) : ℝ) := by exact_mod_cast h3
  linarith

theorem roundTens_le {n : ℤ} {x : ℝ} (h : x ≤ (n : ℝ) * 10) :
    roundTens x ≤ (n : ℝ) * 10 := by
  unfold roundTens
  have h2 : x / 10 ≤ (n : ℝ) := by linarith
  have h3 := rndHalfEven_le h2
  have h4 : (rndHalfEven (x / 10) : ℝ) ≤ (n : ℝ) := by exact_mod_cast h3
  linarith

/-! ## Goal Model (`analyzer/poisson_model.py`) -/

/-- Team attack/defense strength relative to league average
(`PoissonModel.team_ratings` entries). -/
structure Rating where
  attack : ℚ
  defense : ℚ
deriving DecidableEq

/-- State of `PoissonModel`: team ratings plus league-average goals.
Defaults are `DEFAULT_HOME_LAMBDA = 1.55`, `DEFAULT_AWAY_LAMBDA = 1.15`. -/
structure GoalModel where
  team_ratings : List (String × Rating)
  league_home_avg : ℚ := 1.55
  league_away_avg : ℚ := 1.15

/-- The dictionary access `self.team_ratings.get(team, {"attack": 1.0, "defense": 1.0})`
performed by `PoissonModel.get_expected_goals`. -/
def lookupRating (ratings : List (String × Rating)) (name : String) : Rating :=
  (ratings.lookup name).getD ⟨1, 1⟩

/-- `PoissonModel.get_expected_goals`. -/
def get_expected_goals (m : GoalModel) (home away : String) : ℚ × ℚ :=
  let home_r := lookupRating m.team_ratings home
  let away_r := lookupRating m.team_ratings away
  (m.league_home_avg * home_r.attack * away_r.defense,
   m.league_away_avg * away_r.attack * home_r.defense)

/-- `PoissonModel.adjust_for_live`. -/
def adjust_for_live (home_xg away_xg : ℚ) (home_score away_score minute : ℕ) :
    ℚ × ℚ :=
  if 90 ≤ minute then (0, 0)
  else
    let remaining_fraction : ℚ := (90 - (minute : ℚ)) / 90
    let home_remaining := home_xg * remaining_fraction
    let away_remaining := away_xg * remaining_fraction
    let goal_diff : ℤ := (home_score : ℤ) - (away_score : ℤ)
    let home_remaining :=
      if goal_diff < 0 then
        home_remaining * (1 + min 0.3 (|(goal_diff : ℚ)| * 0.15))
      else home_remaining
    let away_remaining :=
      if 0 < goal_diff then
        away_remaining * (1 + min 0.3 ((goal_diff : ℚ) * 0.15))
      else away_remaining
    if 75 < minute then
      let fatigue : ℚ := 1 - (((minute : ℚ) - 75) / 90 * 0.1)
      (home_remaining * fatigue, away_remaining * fatigue)
    else (home_remaining, away_remaining)

/-- Poisson probability mass function `scipy.stats.poisson.pmf(k, lam)`. -/
noncomputable def poisson_pmf (k : ℕ) (lam : ℝ) : ℝ :=
  Real.exp (-lam) * lam ^ k / (Nat.factorial k)

/-- One cell of `PoissonModel.score_probability_matrix`:
`matrix[i][j] = pmf(i, home_xg) * pmf(j, away_xg)`. -/
noncomputable def score_cell (home_xg away_xg : ℝ) (i j : ℕ) : ℝ :=
  poisson_pmf i home_xg * poisson_pmf j away_xg

/-- Accumulator `home_win_p` of the market-aggregation loop in
`get_all_probabilities` (`max_goals = 7`, final score `home_score + i` vs
`away_score + j`). -/
noncomputable def home_win_sum (hx ax : ℝ) (hs as : ℕ) : ℝ :=
  ∑ i ∈ Finset.range 8, ∑ j ∈ Finset.range 8,
    if as + j < hs + i then score_cell hx ax i j else 0

/-- Accumulator `draw_p` of the aggregation loop. -/
noncomputable def draw_sum (hx ax : ℝ) (hs as : ℕ) : ℝ :=
  ∑ i ∈ Finset.range 8, ∑ j ∈ Finset.range 8,
    if hs + i = as + j then score_cell hx ax i j else 0

/-- Accumulator `away_win_p` of the aggregation loop. -/
noncomputable def away_win_sum (hx ax : ℝ) (hs as : ℕ) : ℝ :=
  ∑ i ∈ Finset.range 8, ∑ j ∈ Finset.range 8,
    if hs + i < as + j then score_cell hx ax i j else 0

/-- Accumulator `total_goals_ge3` of the aggregation loop. -/
noncomputable def goals3_sum (hx ax : ℝ) (hs as : ℕ) : ℝ :=
  ∑ i ∈ Finset.range 8, ∑ j ∈ Finset.range 8,
    if 3 ≤ hs + i + (as + j) then score_cell hx ax i j else 0

/-- Accumulator `total_goals_ge4` of the aggregation loop. -/
noncomputable def goals4_sum (hx ax : ℝ) (hs as : ℕ) : ℝ :=
  ∑ i ∈ Finset.range 8, ∑ j ∈ Finset.range 8,
    if 4 ≤ hs + i + (as + j) then score_cell hx ax i j else 0

/-- Accumulator `btts_p` of the aggregation loop. -/
noncomputable def btts_sum (hx ax : ℝ) (hs as : ℕ) : ℝ :=
  ∑ i ∈ Finset.range 8, ∑ j ∈ Finset.range 8,
    if 0 < hs + i ∧ 0 < as + j then score_cell hx ax i j else 0

/-- The dictionary returned by `PoissonModel.get_all_probabilities` /
`_final_probabilities`. -/
structure Probs where
  home_win : ℝ
  draw : ℝ
  away_win : ℝ
  over_25 : ℝ
  under_25 : ℝ
  over_35 : ℝ
  under_35 : ℝ
  btts : ℝ
  btts_no : ℝ
  home_xg : ℚ
  away_xg : ℚ
  base_home_xg : ℚ
  base_away_xg : ℚ

/-- `PoissonModel._final_probabilities`: near-certain end-of-game values. -/
noncomputable def final_probabilities (hs as : ℕ) : Probs where
  home_win := if as < hs then 0.97 else 0.01
  draw := if hs = as then 0.97 else 0.01
  away_win := if hs < as then 0.97 else 0.01
  over_25 := if 2 < hs + as then 0.99 else 0.01
  under_25 := if hs + as ≤ 2 then 0.99 else 0.01
  over_35 := if 3 < hs + as then 0.99 else 0.01
  under_35 := if hs + as ≤ 3 then 0.99 else 0.01
  btts := if 0 < hs ∧ 0 < as then 0.99 else 0.01
  btts_no := if hs = 0 ∨ as = 0 then 0.99 else 0.01
  home_xg := 0
  away_xg := 0
  base_home_xg := 0
  base_away_xg := 0

/-- The remaining-xG pair `get_all_probabilities` works with: the live
adjustment is applied only when `minute > 0`. -/
def live_xg (m : GoalModel) (home away : String) (hs as minute : ℕ) : ℚ × ℚ :=
  let base := get_expected_goals m home away
  if 0 < minute then adjust_for_live base.1 base.2 hs as minute else base

/-- `PoissonModel.get_all_probabilities`. -/
noncomputable def get_all_probabilities (m : GoalModel) (home away : String)
    (hs as minute : ℕ) : Probs :=
  let base := get_expected_goals m home away
  let xg := live_xg m home away hs as minute
  if xg.1 < 1/100 ∧ xg.2 < 1/100 then final_probabilities hs as
  else
    { home_win := round4 (home_win_sum (xg.1 : ℝ) (xg.2 : ℝ) hs as)
      draw := round4 (draw_sum (xg.1 : ℝ) (xg.2 : ℝ) hs as)
      away_win := round4 (away_win_sum (xg.1 : ℝ) (xg.2 : ℝ) hs as)
      over_25 := round4 (goals3_sum (xg.1 : ℝ) (xg.2 : ℝ) hs as)
      under_25 := round4 (1 - goals3_sum (xg.1 : ℝ) (xg.2 : ℝ) hs as)
      over_35 := round4 (goals4_sum (xg.1 : ℝ) (xg.2 : ℝ) hs as)
      under_35 := round4 (1 - goals4_sum (xg.1 : ℝ) (xg.2 : ℝ) hs as)
      btts := round4 (btts_sum (xg.1 : ℝ) (xg.2 : ℝ) hs as)
      btts_no := round4 (1 - btts_sum (xg.1 : ℝ) (xg.2 : ℝ) hs as)
      home_xg := round2Q xg.1
      away_xg := round2Q xg.2
      base_home_xg := round2Q base.1
      base_away_xg := round2Q base.2 }

/-- `PoissonModel.get_most_likely_final_score`: arg-max over added goals
`(add_h, add_a) ∈ [0,6)²`, xG floored at 0.01, first maximum kept. -/
noncomputable def get_most_likely_final_score (m : GoalModel) (home away : String)
    (hs as minute : ℕ) : ℕ × ℕ :=
  let base := get_expected_goals m home away
  let xg := adjust_for_live base.1 base.2 hs as minute
  let cells := ((List.range 6).map fun ah => (List.range 6).map fun aa => (ah, aa)).flatten
  (cells.foldl
    (fun acc c =>
      let p := poisson_pmf c.1 (max (xg.1 : ℝ) 0.01) *
        poisson_pmf c.2 (max (xg.2 : ℝ) 0.01)
      if acc.1 < p then (p, (hs + c.1, as + c.2)) else acc)
    ((0 : ℝ), (hs, as))).2

/-! ## Team Rating Store (`analyzer/stats_fetcher.py`) -/

/-- Python `str.split()` on a list of characters: split on blanks, drop
empty pieces. -/
def splitWS (l : List Char) : List (List Char) :=
  (l.foldr
    (fun c acc =>
      if c = ' ' then [] :: acc
      else
        match acc with
        | [] => [[c]]
        | w :: ws => (c :: w) :: ws)
    []).filter (fun w => w ≠ [])

/-- The token set `set(s.split())` used by `StatsFetcher._similarity`. -/
def pyTokens (s : String) : List (List Char) :=
  (splitWS s.toList).dedup

/-- `StatsFetcher._similarity`: Jaccard similarity of whitespace-split token
sets, 0 when either set is empty. -/
def jaccard (a b : String) : ℚ :=
  let sa := pyTokens a
  let sb := pyTokens b
  if sa = [] ∨ sb = [] then 0
  else ((sa.filter (· ∈ sb)).length : ℚ) / ((sa ∪ sb).length : ℚ)

/-- Python `str.lower()`. -/
def lowerStr (s : String) : String :=
  String.mk (s.toList.map Char.toLower)

/-- `StatsFetcher.get_team_rating`: exact cache hit, else the first cached
team whose lowercased name contains / is contained in the query or has
Jaccard similarity above 0.75, else the neutral rating. -/
def get_team_rating (cache : List (String × Rating)) (team_name : String) :
    Rating :=
  match cache.lookup team_name with
  | some r => r
  | none =>
    let tl := lowerStr team_name
    match cache.find? (fun p =>
        let cl := lowerStr p.1
        tl.toList <:+: cl.toList ∨ cl.toList <:+: tl.toList ∨
          3/4 < jaccard tl cl) with
    | some p => p.2
    | none => ⟨1, 1⟩

/-- Lookup procedure as claim C4 words it for the expected-goals computation:
exact name match first, then the rating of a stored team matching by
token-overlap fuzzy match (Jaccard similarity, threshold 0.75), else the
neutral rating. Stated from the spec sentence for comparison with the
source's `lookupRating`. -/
def claimFuzzyLookup (ratings : List (String × Rating)) (name : String) :
    Rating :=
  match ratings.lookup name with
  | some r => r
  | none =>
    match ratings.find? (fun p => 3/4 ≤ jaccard name p.1) with
    | some p => p.2
    | none => ⟨1, 1⟩

/-! ## Value and Confidence Scorer (`predictor/confidence_engine.py`) -/

/-- A normalized live match snapshot (`scraper.base_scraper.LiveGame`): teams,
score, minute and sparse per-market decimal odds. -/
structure LiveGame where
  home_team : String
  away_team : String
  home_score : ℕ
  away_score : ℕ
  minute : ℕ
  odds_home_win : Option ℚ := none
  odds_draw : Option ℚ := none
  odds_away_win : Option ℚ := none
  odds_over_25 : Option ℚ := none
  odds_under_25 : Option ℚ := none
  odds_btts_yes : Option ℚ := none
  odds_btts_no : Option ℚ := none

/-- `ConfidenceEngine._kelly_fraction` with `config.KELLY_FRACTION = 0.25`
and the hard 0.15 per-bet cap. -/
noncomputable def kelly_fraction (prob odds : ℝ) : ℝ :=
  let b := odds - 1
  if b ≤ 0 then 0
  else min (max 0 ((b * prob - (1 - prob)) / b) * 0.25) 0.15

/-- `ConfidenceEngine._game_state_score`. -/
noncomputable def game_state_score (game : LiveGame) (bet_type : String)
    (probs : Probs) : ℝ :=
  let h := game.home_score
  let a := game.away_score
  let total := h + a
  if bet_type = "over_25" then
    if 2 ≤ total ∧ game.minute < 60 then 90
    else if 1 ≤ total then 70
    else if (1.2 : ℚ) < probs.home_xg + probs.away_xg then 60
    else 40
  else if bet_type = "under_25" then
    if total = 0 ∧ 55 < game.minute then 88
    else if total ≤ 1 ∧ 40 < game.minute then 70
    else if 3 ≤ total then 5
    else 50
  else if bet_type = "home" ∨ bet_type = "away" ∨ bet_type = "draw" then
    let diff : ℤ := (h : ℤ) - (a : ℤ)
    if bet_type = "home" ∧ 1 ≤ diff then 80
    else if bet_type = "away" ∧ diff ≤ -1 then 80
    else if bet_type = "draw" ∧ diff = 0 then 75
    else if |diff| ≤ 1 then 55
    else 30
  else if bet_type = "btts" then
    if 0 < h ∧ 0 < a then 95
    else if (0 < h ∨ 0 < a) ∧ game.minute < 65 then 65
    else 40
  else if bet_type = "btts_no" then
    if h = 0 ∧ a = 0 ∧ 50 < game.minute then 85
    else 40
  else 50

/-- `ConfidenceEngine._calculate_confidence`: weighted blend of five signal
scores, clamped to [0, 100]. The `kelly` argument is accepted but unused,
exactly as in the source. -/
noncomputable def calculate_confidence (model_prob implied_prob edge kelly : ℝ)
    (game : LiveGame) (bet_type : String) (probs : Probs) : ℝ :=
  let prob_score := max 0 ((model_prob - 0.45) / 0.55) * 100
  let s_model := (min 100 prob_score) * 0.35
  let edge_score := max 0 (min 1 ((edge + 0.05) / 0.25)) * 100
  let s_edge := edge_score * 0.25
  let s_state := game_state_score game bet_type probs * 0.20
  let odds := if 0 < implied_prob then 1 / implied_prob else 100
  let odds_score : ℝ :=
    if 1.3 ≤ odds ∧ odds ≤ 5.0 then 100
    else if (1.1 ≤ odds ∧ odds < 1.3) ∨ (5.0 < odds ∧ odds ≤ 8.0) then 60
    else 20
  let s_odds := odds_score * 0.10
  let time_score : ℝ :=
    if 15 ≤ game.minute ∧ game.minute ≤ 75 then 100
    else if (10 ≤ game.minute ∧ game.minute < 15) ∨
        (75 < game.minute ∧ game.minute ≤ 80) then 70
    else 30
  let s_time := time_score * 0.10
  max 0 (min 100 (s_model + s_edge + s_state + s_odds + s_time))

/-- One tier of `ConfidenceEngine._recommend_stake`: linear interpolation over
a 15-point window, rounded to the nearest 10 KES, capped at
`config.MAX_BET_KES = 1000`. -/
noncomputable def stake_in_tier (min_conf min_s max_s confidence : ℝ) : ℝ :=
  let frac := min 1 ((confidence - min_conf) / 15)
  let stake := min_s + (max_s - min_s) * frac
  min (roundTens stake) 1000

/-- `ConfidenceEngine._recommend_stake` with `config.STAKE_CONFIG`: the tiers
`90 ↦ (300, 500)`, `75 ↦ (200, 300)`, `60 ↦ (150, 200)`, `0 ↦ (100, 150)`
scanned in descending key order; the `kelly` argument is never read. -/
noncomputable def recommend_stake (confidence kelly : ℝ) : ℝ :=
  if 90 ≤ confidence then stake_in_tier 90 300 500 confidence
  else if 75 ≤ confidence then stake_in_tier 75 200 300 confidence
  else if 60 ≤ confidence then stake_in_tier 60 150 200 confidence
  else if 0 ≤ confidence then stake_in_tier 0 100 150 confidence
  else 100

/-- Stake rule as claim C9 words it: pick the stake tier whose confidence
floor is met, interpolate `min_stake + (max_stake - min_stake) *
min(1, (confidence - tier_floor) / 15)`, cap at the configured maximum
single-bet amount (1000 KES), round to the nearest 10 units. Stated from the
spec sentence for comparison with the source's `recommend_stake`. -/
noncomputable def claim_stake (confidence : ℝ) : ℝ :=
  if 90 ≤ confidence then
    roundTens (min (300 + (500 - 300) * min 1 ((confidence - 90) / 15)) 1000)
  else if 75 ≤ confidence then
    roundTens (min (200 + (300 - 200) * min 1 ((confidence - 75) / 15)) 1000)
  else if 60 ≤ confidence then
    roundTens (min (150 + (200 - 150) * min 1 ((confidence - 60) / 15)) 1000)
  else
    roundTens (min (100 + (150 - 100) * min 1 ((confidence - 0) / 15)) 1000)

/-- `ConfidenceEngine._confidence_label` (emoji prefixes dropped). -/
noncomputable def confidence_label (confidence : ℝ) : String :=
  if 85 ≤ confidence then "Very High"
  else if 70 ≤ confidence then "High"
  else if 55 ≤ confidence then "Medium"
  else "Low"

/-- The module-level `BET_LABELS` table, with its `get(bet_type, bet_type)`
fallback. -/
def betLabel (bet_type : String) : String :=
  if bet_type = "home" then "Home Win"
  else if bet_type = "draw" then "Draw"
  else if bet_type = "away" then "Away Win"
  else if bet_type = "over_25" then "Over 2.5 Goals"
  else if bet_type = "under_25" then "Under 2.5 Goals"
  else if bet_type = "over_35" then "Over 3.5 Goals"
  else if bet_type = "under_35" then "Under 3.5 Goals"
  else if bet_type = "btts" then "Both Teams to Score"
  else if bet_type = "btts_no" then "Both Teams NOT to Score"
  else bet_type

/-- A `BetRecommendation` record (presentation-only reason/warning strings
omitted). -/
structure BetRecommendation where
  game : LiveGame
  bet_type : String
  bet_label : String
  model_probability : ℝ
  implied_probability : ℝ
  edge : ℝ
  odds : ℚ
  confidence : ℝ
  confidence_label : String
  recommended_stake : ℝ
  kelly_fraction : ℝ
  home_xg : ℚ
  away_xg : ℚ
  predicted_score : ℕ × ℕ

/-- One iteration of the market loop in `ConfidenceEngine.analyze_game`:
`None`, non-positive or too-expensive markets are skipped, the confidence
gate `config.MIN_DISPLAY_CONFIDENCE = 50` is applied, and a recommendation
record is built for survivors. -/
noncomputable def eval_market (game : LiveGame) (probs : Probs)
    (predicted : ℕ × ℕ) (bet_type : String) (odds : Option ℚ)
    (model_prob : ℝ) : Option BetRecommendation :=
  match odds with
  | none => none
  | some o =>
    if o ≤ 1 then none
    else if model_prob ≤ 0 then none
    else
      let implied_prob : ℝ := 1 / (o : ℝ)
      let edge := model_prob - implied_prob
      if edge < -0.15 then none
      else
        let kelly := kelly_fraction model_prob (o : ℝ)
        let confidence :=
          calculate_confidence model_prob implied_prob edge kelly game bet_type probs
        if confidence < 50 then none
        else some {
          game := game
          bet_type := bet_type
          bet_label := betLabel bet_type
          model_probability := round4 model_prob
          implied_probability := round4 implied_prob
          edge := round4 edge
          odds := o
          confidence := round1 confidence
          confidence_label := confidence_label confidence
          recommended_stake := recommend_stake confidence kelly
          kelly_fraction := round4 kelly
          home_xg := probs.home_xg
          away_xg := probs.away_xg
          predicted_score := predicted }

/-- The `markets_to_check` list of `ConfidenceEngine.analyze_game`. -/
def markets_to_check (game : LiveGame) (probs : Probs) :
    List (String × Option ℚ × ℝ) :=
  [("home", game.odds_home_win, probs.home_win),
   ("draw", game.odds_draw, probs.draw),
   ("away", game.odds_away_win, probs.away_win),
   ("over_25", game.odds_over_25, probs.over_25),
   ("under_25", game.odds_under_25, probs.under_25),
   ("btts", game.odds_btts_yes, probs.btts),
   ("btts_no", game.odds_btts_no, probs.btts_no)]

/-- The ordering used by `recommendations.sort(key=lambda r: (r.confidence,
r.edge), reverse=True)`: `a` comes no later than `b` when its
(confidence, edge) key is lexicographically at least `b`'s. -/
def recBefore (a b : BetRecommendation) : Prop :=
  b.confidence < a.confidence ∨
    (a.confidence = b.confidence ∧ b.edge ≤ a.edge)

noncomputable instance : DecidableRel recBefore :=
  fun _ _ => Classical.propDecidable _

instance : IsTotal BetRecommendation recBefore := by
  constructor
  intro a b
  rcases lt_trichotomy a.confidence b.confidence with h | h | h
  · exact Or.inr (Or.inl h)
  · rcases le_total a.edge b.edge with he | he
    · exact Or.inr (Or.inr ⟨h.symm, he⟩)
    · exact Or.inl (Or.inr ⟨h, he⟩)
  · exact Or.inl (Or.inl h)

instance : IsTrans BetRecommendation recBefore := by
  constructor
  intro a b c hab hbc
  rcases hab with h1 | ⟨h1, h1e⟩ <;> rcases hbc with h2 | ⟨h2, h2e⟩
  · exact Or.inl (h2.trans h1)
  · exact Or.inl (h2 ▸ h1)
  · exact Or.inl (h1 ▸ h2)
  · exact Or.inr ⟨h1.trans h2, h2e.trans h1e⟩

/-- `ConfidenceEngine.analyze_game`: skip minute > 85, score every offered
market, sort by (confidence, edge) descending, keep the top five. -/
noncomputable def analyze_game (m : GoalModel) (game : LiveGame) :
    List BetRecommendation :=
  if 85 < game.minute then []
  else
    let probs := get_all_probabilities m game.home_team game.away_team
      game.home_score game.away_score game.minute
    let predicted := get_most_likely_final_score m game.home_team game.away_team
      game.home_score game.away_score game.minute
    let recs := (markets_to_check game probs).filterMap fun mk =>
      eval_market game probs predicted mk.1 mk.2.1 mk.2.2
    (List.insertionSort recBefore recs).take 5

/-! ## Concrete instances used by witnesses and counterexamples -/

/-- A one-team rating store for the C4 analysis. -/
def R0 : List (String × Rating) := [("Manchester United", ⟨2, 3⟩)]

/-- Goal model holding `R0` with the default league averages. -/
def M0 : GoalModel := { team_ratings := R0 }

/-- Goal model with no team ratings (default league averages). -/
def mEmpty : GoalModel := { team_ratings := [] }

/-- Goal model whose two rated teams have zero attack/defense, so the base
expected goals are exactly 0 and the near-certain branch is taken. -/
def mZero : GoalModel :=
  { team_ratings := [("HC", ⟨0, 0⟩), ("AC", ⟨0, 0⟩)] }

/-- A pre-match snapshot with no posted odds. -/
def gW : LiveGame :=
  { home_team := "H", away_team := "A", home_score := 0, away_score := 0,
    minute := 0 }

/-- A snapshot at minute 90 (past the lateness cut-off) with a posted market. -/
def g90 : LiveGame :=
  { home_team := "H", away_team := "A", home_score := 0, away_score := 0,
    minute := 90, odds_home_win := some 2 }

/-- A snapshot for `mZero`: 2-0 pre-match with only the home-win market
posted at decimal odds 2. -/
def g0 : LiveGame :=
  { home_team := "HC", away_team := "AC", home_score := 2, away_score := 0,
    minute := 0, odds_home_win := some 2 }

/-- Probability record used as an argument of witness evaluations. -/
noncomputable def prW : Probs := final_probabilities 0 0

/-! ## Claims C1, C2, C4, C10 -/

/-- C1: for every live adjustment call with 0 < minute < 90 the remaining
expected goals are, in this order and multiplicatively: both base values
scaled by (90 - minute)/90, then only the trailing side multiplied by
1 + min(0.3, |home_score - away_score| * 0.15), then, if minute > 75, both
multiplied by 1 - ((minute - 75)/90 * 0.1); and for minute ≥ 90 both
remaining-xG values are exactly 0. -/
theorem C1_adjust_for_live_formula (hxg axg : ℚ) (hs as minute : ℕ) :
    (0 < minute → minute < 90 →
      adjust_for_live hxg axg hs as minute =
        (let scale : ℚ := (90 - (minute : ℚ)) / 90
         let boost : ℚ := 1 + min 0.3 (|(hs : ℚ) - (as : ℚ)| * 0.15)
         let fat : ℚ :=
           if 75 < minute then 1 - (((minute : ℚ) - 75) / 90 * 0.1) else 1
         (hxg * scale * (if hs < as then boost else 1) * fat,
          axg * scale * (if as < hs then boost else 1) * fat))) ∧
    (90 ≤ minute → adjust_for_live hxg axg hs as minute = (0, 0)) := by
  have habs : (((hs : ℤ) - (as : ℤ) : ℤ) : ℚ) = (hs : ℚ) - (as : ℚ) := by
    push_cast; ring
  constructor
  · intro h0 h90
    dsimp only [adjust_for_live]
    rw [if_neg (show ¬ 90 ≤ minute by omega)]
    rcases Nat.lt_trichotomy hs as with hc | hc | hc
    · -- home trailing
      have hq : (hs : ℚ) - (as : ℚ) < 0 := by
        have : (hs : ℚ) < (as : ℚ) := by exact_mod_cast hc
        linarith
      rw [if_pos (show ((hs : ℤ) - (as : ℤ)) < 0 by omega),
        if_neg (show ¬ (0 : ℤ) < ((hs : ℤ) - (as : ℤ)) by omega),
        if_pos hc, if_neg (show ¬ as < hs by omega), habs, abs_of_neg hq]
      by_cases h75 : 75 < minute
      · rw [if_pos h75, if_pos h75]
        exact Prod.ext (by ring) (by ring)
      · rw [if_neg h75, if_neg h75]
        exact Prod.ext (by ring) (by ring)
    · -- level score
      rw [if_neg (show ¬ ((hs : ℤ) - (as : ℤ)) < 0 by omega),
        if_neg (show ¬ (0 : ℤ) < ((hs : ℤ) - (as : ℤ)) by omega),
        if_neg (show ¬ hs < as by omega), if_neg (show ¬ as < hs by omega)]
      by_cases h75 : 75 < minute
      · rw [if_pos h75, if_pos h75]
        exact Prod.ext (by ring) (by ring)
      · rw [if_neg h75, if_neg h75]
        exact Prod.ext (by ring) (by ring)
    · -- away trailing
      have hq : (0 : ℚ) < (hs : ℚ) - (as : ℚ) := by
        have : (as : ℚ) < (hs : ℚ) := by exact_mod_cast hc
        linarith
      rw [if_neg (show ¬ ((hs : ℤ) - (as : ℤ)) < 0 by omega),
        if_pos (show (0 : ℤ) < ((hs : ℤ) - (as : ℤ)) by omega),
        if_neg (show ¬ hs < as by omega), if_pos hc, habs, abs_of_pos hq]
      by_cases h75 : 75 < minute
      · rw [if_pos h75, if_pos h75]
        exact Prod.ext (by ring) (by ring)
      · rw [if_neg h75, if_neg h75]
        exact Prod.ext (by ring) (by ring)
  · intro h
    unfold adjust_for_live
    rw [if_pos h]

/-- C1 witness: the live-adjustment formula at xG (2, 1), score 1-2,
minute 80, and the zero pair at minute 95. -/
theorem C1_adjust_for_live_witness :
    adjust_for_live 2 1 1 2 80 = (4117/16200, 179/1620) ∧
    adjust_for_live 2 1 1 2 95 = (0, 0) := by
  have h1 := (C1_adjust_for_live_formula 2 1 1 2 80).1 (by norm_num) (by norm_num)
  have h2 := (C1_adjust_for_live_formula 2 1 1 2 95).2 (by norm_num)
  refine ⟨?_, h2⟩
  rw [h1]
  norm_num [min_def]

/-- C2: for probability p in [0,1] and decimal odds o > 1 the Kelly stake
fraction lies in [0, 0.15] and equals 0 whenever b*p ≤ 1-p with b = o-1;
for b ≤ 0 it is 0. -/
theorem C2_kelly_fraction_range (p o : ℝ) :
    (0 ≤ p → p ≤ 1 → 1 < o →
      0 ≤ kelly_fraction p o ∧ kelly_fraction p o ≤ 0.15 ∧
        ((o - 1) * p ≤ 1 - p → kelly_fraction p o = 0)) ∧
    (o - 1 ≤ 0 → kelly_fraction p o = 0) := by
  constructor
  · intro hp0 hp1 ho
    dsimp only [kelly_fraction]
    rw [if_neg (show ¬ o - 1 ≤ 0 by linarith)]
    refine ⟨le_min (by positivity) (by norm_num), min_le_right _ _, ?_⟩
    intro hedge
    have hb : (0 : ℝ) < o - 1 := by linarith
    have hnum : (o - 1) * p - (1 - p) ≤ 0 := by linarith
    have hq : ((o - 1) * p - (1 - p)) / (o - 1) ≤ 0 :=
      div_nonpos_iff.mpr (Or.inr ⟨hnum, le_of_lt hb⟩)
    rw [max_eq_left hq, zero_mul, min_eq_left (by norm_num)]
  · intro hb
    dsimp only [kelly_fraction]
    rw [if_pos (show o - 1 ≤ 0 by linarith)]

/-- C2 witness: at p = 1/2, o = 2 (no edge) the fraction is 0 and within
[0, 0.15]; at o = 1/2 (b ≤ 0) it is 0. -/
theorem C2_kelly_fraction_witness :
    kelly_fraction (1/2) 2 = 0 ∧ 0 ≤ kelly_fraction (1/2) 2 ∧
      kelly_fraction (1/2) 2 ≤ 0.15 ∧ kelly_fraction (1/2) (1/2) = 0 := by
  have h1 := (C2_kelly_fraction_range (1/2) 2).1 (by norm_num) (by norm_num)
    (by norm_num)
  have h2 := (C2_kelly_fraction_range (1/2) (1/2)).2 (by norm_num)
  exact ⟨h1.2.2 (by norm_num), h1.1, h1.2.1, h2⟩

/-- C10: the recommended stake does not depend on the Kelly fraction
argument: equal confidence and configuration give equal stakes for any two
Kelly values. -/
theorem C10_stake_independent_of_kelly (confidence k1 k2 : ℝ) :
    recommend_stake confidence k1 = recommend_stake confidence k2 := rfl

theorem lookup_eq_none_of_not_mem (l : List (String × Rating)) (name : String)
    (h : ∀ r, (name, r) ∉ l) : List.lookup name l = none := by
  induction l with
  | nil => rfl
  | cons p t ih =>
    rw [List.lookup_cons]
    have hne : (name == p.1) = false := by
      rcases p with ⟨k, v⟩
      by_cases hk : name = k
      · exact absurd (show (name, v) ∈ (k, v) :: t by
          rw [hk]; exact List.mem_cons_self _ _) (h v)
      · simp [hk]
    rw [hne]
    exact ih fun r hr => h r (List.mem_cons_of_mem _ hr)

theorem lookup_eq_some_of_mem (l : List (String × Rating)) (name : String)
    (r : Rating) (hdis : l.Pairwise (fun p q => p.1 ≠ q.1))
    (h : (name, r) ∈ l) : List.lookup name l = some r := by
  induction l with
  | nil => exact absurd h (List.not_mem_nil _)
  | cons p t ih =>
    rw [List.lookup_cons]
    rcases List.mem_cons.mp h with heq | hmem
    · rw [← heq]
      simp
    · have hne : (name == p.1) = false := by
        have hkey : p.1 ≠ name := by
          have := (List.pairwise_cons.mp hdis).1 (name, r) hmem
          simpa using this
        simp [Ne.symm hkey]
      rw [hne]
      exact ih (List.pairwise_cons.mp hdis).2 hmem

/-- C4 (amended): the team-rating lookup used by the expected-goals
computation is an exact-name dictionary access: a stored name returns its
stored rating (keys being distinct), any other name returns the neutral
rating {attack 1, defense 1}; no fuzzy matching is applied on this path
(token-overlap fuzzy matching exists only in the stats fetcher's
`get_team_rating`, which `get_expected_goals` does not call). -/
theorem C4_exact_lookup_only (m : GoalModel) (home away : String) :
    get_expected_goals m home away =
      (m.league_home_avg * (lookupRating m.team_ratings home).attack *
        (lookupRating m.team_ratings away).defense,
       m.league_away_avg * (lookupRating m.team_ratings away).attack *
        (lookupRating m.team_ratings home).defense) ∧
    (∀ name, (∀ r, (name, r) ∉ m.team_ratings) →
      lookupRating m.team_ratings name = ⟨1, 1⟩) ∧
    (∀ name r, m.team_ratings.Pairwise (fun p q => p.1 ≠ q.1) →
      (name, r) ∈ m.team_ratings → lookupRating m.team_ratings name = r) := by
  refine ⟨rfl, ?_, ?_⟩
  · intro name hname
    unfold lookupRating
    rw [lookup_eq_none_of_not_mem _ _ hname]
    rfl
  · intro name r hdis hmem
    unfold lookupRating
    rw [lookup_eq_some_of_mem _ _ _ hdis hmem]
    rfl

/-- C4 witness: on the concrete store `R0`, an unknown team gets the neutral
rating and the stored team gets its stored rating. -/
theorem C4_exact_lookup_witness :
    lookupRating R0 "Chelsea" = ⟨1, 1⟩ ∧
    lookupRating R0 "Manchester United" = ⟨2, 3⟩ := by
  have h := C4_exact_lookup_only M0 "Chelsea" "Manchester United"
  refine ⟨h.2.1 "Chelsea" ?_, h.2.2 "Manchester United" ⟨2, 3⟩ ?_ ?_⟩
  · intro r hr
    simp only [M0, R0, List.mem_singleton, Prod.mk.injEq] at hr
    exact absurd hr.1 (by decide)
  · simp [M0, R0]
  · simp [M0, R0]

/-- C4 counterexample: "United Manchester" has Jaccard token similarity 1
with the stored "Manchester United", so the claimed lookup returns the
stored rating (2, 3); the lookup actually used by the expected-goals
computation returns the neutral rating, and the expected goals are the
neutral-league values (1.55, 1.15), not the fuzzy-matched ones. -/
theorem C4_counterexample :
    jaccard "United Manchester" "Manchester United" = 1 ∧
    claimFuzzyLookup R0 "United Manchester" = ⟨2, 3⟩ ∧
    lookupRating R0 "United Manchester" = ⟨1, 1⟩ ∧
    get_expected_goals M0 "United Manchester" "Leeds" = (1.55, 1.15) := by
  have hj : jaccard "United Manchester" "Manchester United" = 1 := by
    have h1 : pyTokens "United Manchester" =
        ["United".toList, "Manchester".toList] := by rfl
    have h2 : pyTokens "Manchester United" =
        ["Manchester".toList, "United".toList] := by rfl
    unfold jaccard
    rw [h1, h2]
    rw [if_neg (by decide)]
    norm_num
  refine ⟨hj, ?_, by rfl, ?_⟩
  · unfold claimFuzzyLookup
    have hl : List.lookup "United Manchester" R0 = none := by rfl
    rw [hl]
    have hp : decide ((3 : ℚ)/4 ≤ jaccard "United Manchester" "Manchester United") = true := by
      rw [decide_eq_true_eq, hj]
      norm_num
    simp only [R0, List.find?]
    rw [hp]
  · unfold get_expected_goals lookupRating
    have h1 : List.lookup "United Manchester" M0.team_ratings = none := by rfl
    have h2 : List.lookup "Leeds" M0.team_ratings = none := by rfl
    rw [h1, h2]
    show ((M0.league_home_avg * 1 * 1, M0.league_away_avg * 1 * 1) : ℚ × ℚ) = _
    norm_num [M0]

/-- C3: for every computed market-probability result, in the matrix branch
and in the near-certain branch alike, `under_25` is exactly `1 - over_25`
and `btts_no` is exactly `1 - btts`. -/
theorem C3_exact_complements (m : GoalModel) (home away : String)
    (hs as minute : ℕ) :
    (get_all_probabilities m home away hs as minute).under_25 =
      1 - (get_all_probabilities m home away hs as minute).over_25 ∧
    (get_all_probabilities m home away hs as minute).btts_no =
      1 - (get_all_probabilities m home away hs as minute).btts := by
  by_cases h : (live_xg m home away hs as minute).1 < 1/100 ∧
      (live_xg m home away hs as minute).2 < 1/100
  · have he : get_all_probabilities m home away hs as minute =
        final_probabilities hs as := by
      dsimp only [get_all_probabilities]
      rw [if_pos h]
    rw [he]
    simp only [final_probabilities]
    constructor
    · by_cases h2 : hs + as ≤ 2
      · rw [if_pos h2, if_neg (by omega)]; norm_num
      · rw [if_neg h2, if_pos (by omega)]; norm_num
    · by_cases hb : hs = 0 ∨ as = 0
      · rw [if_pos hb, if_neg (by omega)]; norm_num
      · rw [if_neg hb, if_pos (by omega)]; norm_num
  · constructor
    · dsimp only [get_all_probabilities]
      rw [if_neg h]
      exact round4_complement _
    · dsimp only [get_all_probabilities]
      rw [if_neg h]
      exact round4_complement _

/-- C7: whenever both remaining xG values are below 0.01 (in particular at
any minute ≥ 90, where the live adjustment returns (0, 0)), the probability
computation skips the scoreline matrix and returns the near-certain branch:
0.97 for the 1X2 outcome matching the current score and 0.01 for the other
two, 0.99/0.01 for each totals and BTTS market according to the current
score. -/
theorem C7_near_certain_branch (m : GoalModel) (home away : String)
    (hs as minute : ℕ)
    (h1 : (live_xg m home away hs as minute).1 < 1/100)
    (h2 : (live_xg m home away hs as minute).2 < 1/100) :
    get_all_probabilities m home away hs as minute = final_probabilities hs as ∧
    (get_all_probabilities m home away hs as minute).home_win =
      (if as < hs then (0.97 : ℝ) else 0.01) ∧
    (get_all_probabilities m home away hs as minute).draw =
      (if hs = as then (0.97 : ℝ) else 0.01) ∧
    (get_all_probabilities m home away hs as minute).away_win =
      (if hs < as then (0.97 : ℝ) else 0.01) ∧
    (get_all_probabilities m home away hs as minute).over_25 =
      (if 2 < hs + as then (0.99 : ℝ) else 0.01) ∧
    (get_all_probabilities m home away hs as minute).under_25 =
      (if hs + as ≤ 2 then (0.99 : ℝ) else 0.01) ∧
    (get_all_probabilities m home away hs as minute).over_35 =
      (if 3 < hs + as then (0.99 : ℝ) else 0.01) ∧
    (get_all_probabilities m home away hs as minute).under_35 =
      (if hs + as ≤ 3 then (0.99 : ℝ) else 0.01) ∧
    (get_all_probabilities m home away hs as minute).btts =
      (if 0 < hs ∧ 0 < as then (0.99 : ℝ) else 0.01) ∧
    (get_all_probabilities m home away hs as minute).btts_no =
      (if hs = 0 ∨ as = 0 then (0.99 : ℝ) else 0.01) ∧
    (∀ mn, 90 ≤ mn → live_xg m home away hs as mn = (0, 0)) := by
  have he : get_all_probabilities m home away hs as minute =
      final_probabilities hs as := by
    dsimp only [get_all_probabilities]
    rw [if_pos ⟨h1, h2⟩]
  rw [he]
  refine ⟨rfl, rfl, rfl, rfl, rfl, rfl, rfl, rfl, rfl, rfl, ?_⟩
  intro mn hmn
  dsimp only [live_xg]
  rw [if_pos (by omega : 0 < mn)]
  unfold adjust_for_live
  rw [if_pos hmn]

/-- C7 witness: an unrated fixture at minute 92 and score 2-1 returns the
near-certain values. -/
theorem C7_witness :
    get_all_probabilities mEmpty "A" "B" 2 1 92 = final_probabilities 2 1 :=
  (C7_near_certain_branch mEmpty "A" "B" 2 1 92
    (by norm_num [live_xg, adjust_for_live])
    (by norm_num [live_xg, adjust_for_live])).1

theorem score_cell_pos {hx ax : ℝ} (hhx : 0 < hx) (hax : 0 < ax) (i j : ℕ) :
    0 < score_cell hx ax i j := by
  unfold score_cell poisson_pmf
  have h1 : (0 : ℝ) < (Nat.factorial i : ℝ) := by
    exact_mod_cast Nat.factorial_pos i
  have h2 : (0 : ℝ) < (Nat.factorial j : ℝ) := by
    exact_mod_cast Nat.factorial_pos j
  exact mul_pos
    (div_pos (mul_pos (Real.exp_pos _) (pow_pos hhx _)) h1)
    (div_pos (mul_pos (Real.exp_pos _) (pow_pos hax _)) h2)

theorem home_win_sum_total (hx ax : ℝ) (hs as : ℕ) (h : as + 7 < hs) :
    home_win_sum hx ax hs as =
      ∑ i ∈ Finset.range 8, ∑ j ∈ Finset.range 8, score_cell hx ax i j := by
  unfold home_win_sum
  refine Finset.sum_congr rfl fun i _ => Finset.sum_congr rfl fun j hj => ?_
  have hj8 := Finset.mem_range.mp hj
  rw [if_pos (by omega)]

/-- C8 (amended): with both remaining xG values fixed and positive, replacing
the score (hs, as) by (hs + 1, as) strictly increases the home-win
accumulator and strictly decreases the away-win accumulator of the
matrix-aggregation loop, provided the score difference stays within the
7-goal matrix cap (as - hs ≤ 7 and hs - as ≤ 6); beyond the cap the affected
matrix diagonal is empty and the accumulators can be unchanged. -/
theorem C8_matrix_monotonicity (hx ax : ℝ) (hs as : ℕ) (hhx : 0 < hx)
    (hax : 0 < ax) (hlo : (as : ℤ) - (hs : ℤ) ≤ 7)
    (hhi : (hs : ℤ) - (as : ℤ) ≤ 6) :
    home_win_sum hx ax hs as < home_win_sum hx ax (hs + 1) as ∧
    away_win_sum hx ax (hs + 1) as < away_win_sum hx ax hs as := by
  have hcell := fun i j => score_cell_pos hhx hax i j
  constructor
  · unfold home_win_sum
    apply Finset.sum_lt_sum
    · intro i _
      apply Finset.sum_le_sum
      intro j _
      split_ifs with h1 h2 <;>
        first
          | exact le_refl _
          | (exfalso; omega)
          | exact le_of_lt (hcell _ _)
    · refine ⟨as - hs, Finset.mem_range.mpr (by omega), ?_⟩
      apply Finset.sum_lt_sum
      · intro j _
        split_ifs with h1 h2 <;>
          first
            | exact le_refl _
            | (exfalso; omega)
            | exact le_of_lt (hcell _ _)
      · refine ⟨hs - as, Finset.mem_range.mpr (by omega), ?_⟩
        rw [if_neg (by omega), if_pos (by omega)]
        exact hcell _ _
  · unfold away_win_sum
    apply Finset.sum_lt_sum
    · intro i _
      apply Finset.sum_le_sum
      intro j _
      split_ifs with h1 h2 <;>
        first
          | exact le_refl _
          | (exfalso; omega)
          | exact le_of_lt (hcell _ _)
    · refine ⟨as - hs - 1, Finset.mem_range.mpr (by omega), ?_⟩
      apply Finset.sum_lt_sum
      · intro j _
        split_ifs with h1 h2 <;>
          first
            | exact le_refl _
            | (exfalso; omega)
            | exact le_of_lt (hcell _ _)
      · refine ⟨hs + 1 - as, Finset.mem_range.mpr (by omega), ?_⟩
        rw [if_neg (by omega), if_pos (by omega)]
        exact hcell _ _

/-- C8 witness: at xG (1, 1) and score 0-0, raising the score difference to
one strictly moves both 1X2 accumulators. -/
theorem C8_matrix_monotonicity_witness :
    home_win_sum 1 1 0 0 < home_win_sum 1 1 1 0 ∧
    away_win_sum 1 1 1 0 < away_win_sum 1 1 0 0 :=
  C8_matrix_monotonicity 1 1 0 0 (by norm_num) (by norm_num) (by norm_num)
    (by norm_num)

/-- C8 counterexample: with the positive default xG pair (1.55, 1.15) fixed,
moving the score from 8-0 to 9-0 (score difference 8 to 9) leaves the
computed home-win probability unchanged: the claimed strict monotonicity
fails once the difference exceeds the 7-goal matrix cap. -/
theorem C8_counterexample :
    live_xg mEmpty "A" "B" 8 0 0 = (1.55, 1.15) ∧
    home_win_sum 1.55 1.15 8 0 = home_win_sum 1.55 1.15 9 0 ∧
    (get_all_probabilities mEmpty "A" "B" 8 0 0).home_win =
      (get_all_probabilities mEmpty "A" "B" 9 0 0).home_win := by
  have hlv8 : live_xg mEmpty "A" "B" 8 0 0 = (1.55, 1.15) := by
    norm_num [live_xg, get_expected_goals, lookupRating, mEmpty]
  have hlv9 : live_xg mEmpty "A" "B" 9 0 0 = (1.55, 1.15) := by
    norm_num [live_xg, get_expected_goals, lookupRating, mEmpty]
  have hsum : home_win_sum 1.55 1.15 8 0 = home_win_sum 1.55 1.15 9 0 := by
    rw [home_win_sum_total _ _ 8 0 (by omega),
      home_win_sum_total _ _ 9 0 (by omega)]
  refine ⟨hlv8, hsum, ?_⟩
  have h8 : (get_all_probabilities mEmpty "A" "B" 8 0 0).home_win =
      round4 (home_win_sum ((1.55 : ℚ) : ℝ) ((1.15 : ℚ) : ℝ) 8 0) := by
    dsimp only [get_all_probabilities]
    rw [hlv8, if_neg (by norm_num)]
  have h9 : (get_all_probabilities mEmpty "A" "B" 9 0 0).home_win =
      round4 (home_win_sum ((1.55 : ℚ) : ℝ) ((1.15 : ℚ) : ℝ) 9 0) := by
    dsimp only [get_all_probabilities]
    rw [hlv9, if_neg (by norm_num)]
  rw [h8, h9]
  have hc : ((1.55 : ℚ) : ℝ) = (1.55 : ℝ) := by norm_num
  have hc2 : ((1.15 : ℚ) : ℝ) = (1.15 : ℝ) := by norm_num
  rw [hc, hc2, hsum]

/-- C6: for a snapshot not skipped by the lateness rule, the recommendation
list is sorted by (confidence, edge) descending (confidence primary, edge
breaking ties) and holds at most 5 entries. -/
theorem C6_sorted_and_capped (m : GoalModel) (game : LiveGame)
    (h : game.minute ≤ 85) :
    List.Sorted recBefore (analyze_game m game) ∧
    (analyze_game m game).length ≤ 5 := by
  dsimp only [analyze_game]
  rw [if_neg (by omega : ¬ 85 < game.minute)]
  constructor
  · exact List.Pairwise.sublist (List.take_sublist _ _)
      (List.sorted_insertionSort recBefore _)
  · rw [List.length_take]
    exact min_le_left _ _

/-- C6 witness: the pre-match snapshot `gW` satisfies the lateness bound and
its recommendation list is sorted and capped at five. -/
theorem C6_witness :
    List.Sorted recBefore (analyze_game mEmpty gW) ∧
    (analyze_game mEmpty gW).length ≤ 5 :=
  C6_sorted_and_capped mEmpty gW (by norm_num [gW])

theorem stake_cap_comm (mn mx conf floor : ℝ) (hmn : 0 ≤ mn) (hmx : mn ≤ mx)
    (hmx500 : mx ≤ 500) :
    min (roundTens (mn + (mx - mn) * min 1 ((conf - floor) / 15))) 1000 =
      roundTens (min (mn + (mx - mn) * min 1 ((conf - floor) / 15)) 1000) := by
  set s := mn + (mx - mn) * min 1 ((conf - floor) / 15) with hs
  have hfle : min 1 ((conf - floor) / 15) ≤ 1 := min_le_left _ _
  have hle : s ≤ 500 := by
    have h2 : (mx - mn) * min 1 ((conf - floor) / 15) ≤ (mx - mn) * 1 :=
      mul_le_mul_of_nonneg_left hfle (by linarith)
    rw [hs]
    linarith
  have hround : roundTens s ≤ 500 := by
    have h3 := roundTens_le (n := 50) (x := s) (by push_cast; linarith)
    push_cast at h3
    linarith
  rw [min_eq_left (by linarith), min_eq_left (by linarith)]

/-- C9: a candidate whose blended confidence is below the configured
minimum-display threshold (50) is discarded with no stake; a surviving
confidence gets the stake of the tier whose confidence floor it meets,
interpolated linearly over a 15-point window, capped at the configured
1000-KES maximum single bet and rounded to the nearest 10 units. -/
theorem C9_stake_gate_and_formula :
    (∀ (game : LiveGame) (probs : Probs) (predicted : ℕ × ℕ)
        (bet_type : String) (o : ℚ) (p : ℝ),
      calculate_confidence p (1 / (o : ℝ)) (p - 1 / (o : ℝ))
          (kelly_fraction p (o : ℝ)) game bet_type probs < 50 →
      eval_market game probs predicted bet_type (some o) p = none) ∧
    (∀ confidence kelly : ℝ, 50 ≤ confidence →
      recommend_stake confidence kelly = claim_stake confidence) := by
  constructor
  · intro game probs predicted bet_type o p hconf
    dsimp only [eval_market]
    split_ifs with h1 h2 h3
    · rfl
    · rfl
    · rfl
    · rfl
  · intro conf kelly h50
    dsimp only [recommend_stake, claim_stake, stake_in_tier]
    split_ifs with h1 h2 h3 h4
    · exact stake_cap_comm 300 500 conf 90 (by norm_num) (by norm_num)
        (by norm_num)
    · exact stake_cap_comm 200 300 conf 75 (by norm_num) (by norm_num)
        (by norm_num)
    · exact stake_cap_comm 150 200 conf 60 (by norm_num) (by norm_num)
        (by norm_num)
    · exact stake_cap_comm 100 150 conf 0 (by norm_num) (by norm_num)
        (by norm_num)
    · exact absurd h50 (by linarith)

/-- C9 witness: a market with blended confidence below 50 is dropped, and a
confidence of 80 receives the tier-75 interpolated, capped, rounded stake. -/
theorem C9_stake_witness :
    eval_market gW prW (0, 0) "zz" (some 100) (1/2) = none ∧
    recommend_stake 80 0 = claim_stake 80 := by
  constructor
  · apply C9_stake_gate_and_formula.1
    have hstate : game_state_score gW "zz" prW = 50 := by
      dsimp only [game_state_score]
      rw [if_neg (by decide), if_neg (by decide), if_neg (by decide),
        if_neg (by decide), if_neg (by decide)]
    dsimp only [calculate_confidence]
    rw [hstate]
    norm_num [gW, min_def, max_def]
  · exact C9_stake_gate_and_formula.2 80 0 (by norm_num)

noncomputable instance : Inhabited BetRecommendation :=
  ⟨{ game := gW, bet_type := "", bet_label := "", model_probability := 0,
     implied_probability := 0, edge := 0, odds := 0, confidence := 0,
     confidence_label := "", recommended_stake := 0, kelly_fraction := 0,
     home_xg := 0, away_xg := 0, predicted_score := (0, 0) }⟩

theorem get_all_probs_round4_fixed (m : GoalModel) (home away : String)
    (hs as minute : ℕ) :
    round4 (get_all_probabilities m home away hs as minute).home_win =
      (get_all_probabilities m home away hs as minute).home_win ∧
    round4 (get_all_probabilities m home away hs as minute).draw =
      (get_all_probabilities m home away hs as minute).draw ∧
    round4 (get_all_probabilities m home away hs as minute).away_win =
      (get_all_probabilities m home away hs as minute).away_win ∧
    round4 (get_all_probabilities m home away hs as minute).over_25 =
      (get_all_probabilities m home away hs as minute).over_25 ∧
    round4 (get_all_probabilities m home away hs as minute).under_25 =
      (get_all_probabilities m home away hs as minute).under_25 ∧
    round4 (get_all_probabilities m home away hs as minute).btts =
      (get_all_probabilities m home away hs as minute).btts ∧
    round4 (get_all_probabilities m home away hs as minute).btts_no =
      (get_all_probabilities m home away hs as minute).btts_no := by
  have l97 : round4 (0.97 : ℝ) = 0.97 := round4_fix (n := 9700) (by norm_num)
  have l99 : round4 (0.99 : ℝ) = 0.99 := round4_fix (n := 9900) (by norm_num)
  have l01 : round4 (0.01 : ℝ) = 0.01 := round4_fix (n := 100) (by norm_num)
  by_cases h : (live_xg m home away hs as minute).1 < 1/100 ∧
      (live_xg m home away hs as minute).2 < 1/100
  · have he : get_all_probabilities m home away hs as minute =
        final_probabilities hs as := by
      dsimp only [get_all_probabilities]
      rw [if_pos h]
    rw [he]
    refine ⟨?_, ?_, ?_, ?_, ?_, ?_, ?_⟩ <;>
      (dsimp only [final_probabilities]; split_ifs) <;>
      first | exact l97 | exact l99 | exact l01
  · refine ⟨?_, ?_, ?_, ?_, ?_, ?_, ?_⟩ <;>
      (dsimp only [get_all_probabilities]; rw [if_neg h]; exact round4_idem _)

theorem eval_market_some_inv (game : LiveGame) (probs : Probs)
    (predicted : ℕ × ℕ) (bet_type : String) (odds : Option ℚ) (p : ℝ)
    (r : BetRecommendation) (hfix : round4 p = p)
    (h : eval_market game probs predicted bet_type odds p = some r) :
    1 < r.odds ∧ 0 < r.model_probability ∧ (-0.15 : ℝ) ≤ r.edge := by
  match odds with
  | none => exact Option.noConfusion h
  | some o =>
    dsimp only [eval_market] at h
    split_ifs at h with h1 h2 h3 h4
    rw [← Option.some.inj h]
    refine ⟨not_le.mp h1, ?_, ?_⟩
    · show (0 : ℝ) < round4 p
      rw [hfix]
      exact not_le.mp h2
    · show (-0.15 : ℝ) ≤ round4 (p - 1 / (o : ℝ))
      have h5 := round4_ge (n := -1500) (x := p - 1 / (o : ℝ))
        (by push_cast; linarith [not_lt.mp h3])
      push_cast at h5
      linarith

/-- C5: every recommendation returned by the single-match analysis carries
decimal odds above 1, a positive model probability and an edge of at least
-0.15 (markets with missing odds, odds ≤ 1, non-positive probability or
edge < -0.15 never appear); and when the snapshot's minute exceeds 85 the
returned list is empty regardless of odds and probabilities. -/
theorem C5_output_filters (m : GoalModel) (game : LiveGame) :
    (∀ r ∈ analyze_game m game,
      1 < r.odds ∧ 0 < r.model_probability ∧ (-0.15 : ℝ) ≤ r.edge) ∧
    (85 < game.minute → analyze_game m game = []) := by
  constructor
  · intro r hr
    by_cases hm : 85 < game.minute
    · rw [show analyze_game m game = [] by
        dsimp only [analyze_game]; rw [if_pos hm]] at hr
      exact absurd hr (List.not_mem_nil r)
    · dsimp only [analyze_game] at hr
      rw [if_neg hm] at hr
      have hr2 : r ∈ (markets_to_check game
          (get_all_probabilities m game.home_team game.away_team
            game.home_score game.away_score game.minute)).filterMap
          (fun mk => eval_market game
            (get_all_probabilities m game.home_team game.away_team
              game.home_score game.away_score game.minute)
            (get_most_likely_final_score m game.home_team game.away_team
              game.home_score game.away_score game.minute)
            mk.1 mk.2.1 mk.2.2) := by
        have h1 := List.take_subset 5 _ hr
        exact (List.perm_insertionSort recBefore _).subset h1
      obtain ⟨mk, hmk, heval⟩ := List.mem_filterMap.mp hr2
      have hfixed := get_all_probs_round4_fixed m game.home_team game.away_team
        game.home_score game.away_score game.minute
      simp only [markets_to_check, List.mem_cons, List.not_mem_nil,
        or_false] at hmk
      rcases hmk with rfl | rfl | rfl | rfl | rfl | rfl | rfl
      · exact eval_market_some_inv _ _ _ _ _ _ _ hfixed.1 heval
      · exact eval_market_some_inv _ _ _ _ _ _ _ hfixed.2.1 heval
      · exact eval_market_some_inv _ _ _ _ _ _ _ hfixed.2.2.1 heval
      · exact eval_market_some_inv _ _ _ _ _ _ _ hfixed.2.2.2.1 heval
      · exact eval_market_some_inv _ _ _ _ _ _ _ hfixed.2.2.2.2.1 heval
      · exact eval_market_some_inv _ _ _ _ _ _ _ hfixed.2.2.2.2.2.1 heval
      · exact eval_market_some_inv _ _ _ _ _ _ _ hfixed.2.2.2.2.2.2 heval
  · intro hm
    dsimp only [analyze_game]
    rw [if_pos hm]

/-- C5 witness: a snapshot at minute 90 yields no recommendations; for the
2-0 snapshot `g0` with one posted market the analysis returns a
recommendation whose recorded odds, probability and edge satisfy the
invariants. -/
theorem C5_output_filters_witness :
    analyze_game mZero g90 = [] ∧
    analyze_game mZero g0 ≠ [] ∧
    1 < (analyze_game mZero g0).headI.odds ∧
    0 < (analyze_game mZero g0).headI.model_probability ∧
    (-0.15 : ℝ) ≤ (analyze_game mZero g0).headI.edge := by
  have hpart2 := (C5_output_filters mZero g90).2 (by norm_num [g90])
  have hlv : live_xg mZero "HC" "AC" 2 0 0 = (0, 0) := by
    norm_num [live_xg, get_expected_goals, lookupRating, mZero]
  have hprobs : get_all_probabilities mZero "HC" "AC" 2 0 0 =
      final_probabilities 2 0 := by
    dsimp only [get_all_probabilities]
    rw [if_pos (by rw [hlv]; norm_num)]
  have ph : (final_probabilities 2 0).home_win = (0.97 : ℝ) := by
    dsimp only [final_probabilities]
    norm_num
  have hconf : ¬ (calculate_confidence 0.97 (1 / ((2 : ℚ) : ℝ))
      (0.97 - 1 / ((2 : ℚ) : ℝ)) (kelly_fraction 0.97 ((2 : ℚ) : ℝ)) g0 "home"
      (final_probabilities 2 0) < 50) := by
    have hstate : game_state_score g0 "home" (final_probabilities 2 0) = 80 := by
      dsimp only [game_state_score, g0]
      rw [if_neg (by decide), if_neg (by decide),
        if_pos (Or.inl rfl), if_pos ⟨rfl, by norm_num⟩]
    dsimp only [calculate_confidence]
    rw [hstate]
    norm_num [g0, min_def, max_def]
  obtain ⟨r, hr⟩ : ∃ r, eval_market g0 (final_probabilities 2 0)
      (get_most_likely_final_score mZero "HC" "AC" 2 0 0) "home" (some 2)
      ((final_probabilities 2 0).home_win) = some r := by
    rw [ph]
    dsimp only [eval_market]
    rw [if_neg (by norm_num : ¬ (2 : ℚ) ≤ 1),
      if_neg (by norm_num : ¬ (0.97 : ℝ) ≤ 0),
      if_neg (show ¬ ((0.97 : ℝ) - 1 / ((2 : ℚ) : ℝ) < -0.15) by
        push_cast; norm_num),
      if_neg hconf]
    exact ⟨_, rfl⟩
  have hnone : ∀ bt mp, eval_market g0 (final_probabilities 2 0)
      (get_most_likely_final_score mZero "HC" "AC" 2 0 0) bt none mp = none :=
    fun _ _ => rfl
  have hlist : analyze_game mZero g0 = [r] := by
    dsimp only [analyze_game, markets_to_check]
    rw [if_neg (by decide : ¬ 85 < g0.minute)]
    rw [show g0.home_team = "HC" from rfl, show g0.away_team = "AC" from rfl,
      show g0.home_score = 2 from rfl, show g0.away_score = 0 from rfl,
      show g0.minute = 0 from rfl, show g0.odds_home_win = some 2 from rfl,
      show g0.odds_draw = none from rfl, show g0.odds_away_win = none from rfl,
      show g0.odds_over_25 = none from rfl,
      show g0.odds_under_25 = none from rfl,
      show g0.odds_btts_yes = none from rfl,
      show g0.odds_btts_no = none from rfl, hprobs]
    simp only [List.filterMap_cons, List.filterMap_nil, hr, hnone]
    rfl
  have hmem : (analyze_game mZero g0).headI ∈ analyze_game mZero g0 := by
    rw [hlist]
    exact List.mem_singleton_self _
  have h3 := (C5_output_filters mZero g0).1 _ hmem
  exact ⟨hpart2, by rw [hlist]; simp, h3.1, h3.2.1, h3.2.2⟩
